import Mathlib

/-!
Verification development for the `kociemba` Rubik's-cube solver.

The Rust sources under `src/` (`solver.rs`, `coord.rs`, `pruning.rs`,
`moves.rs`, `lib.rs`) are embedded shallowly below.  The crate modules
`cubie.rs`, `facelet.rs`, `symmetries.rs`, `constants.rs` and `error.rs`
are referenced by the sources but are not part of the provided tree; the
definitions taken from them are modelled from the specification and are
marked `Modelled from the spec:` in their doc comments.  Machine integers
(`u16`, `u32`, `usize`) are represented by `ℕ`; all the indices and table
values involved stay far below any overflow boundary on the paths that the
theorems talk about, and where a wrap could matter it is made explicit.
-/

namespace Kociemba

/-- Modelled from the spec: §3.1 cube entities (crate module `cubie.rs` is
not under `src/`).  A cubie-level cube: corner permutation `cp` (8 entries,
corner ids 0..7 in the order URF, UFL, ULB, UBR, DFR, DLF, DBL, DRB),
corner orientations `co` (twists 0..2), edge permutation `ep` (12 entries,
edge ids 0..11 in the order UR, UF, UL, UB, DR, DF, DL, DB, FR, FL, BL,
BR) and edge orientations `eo` (flips 0..1). -/
structure CubieCube where
  cp : List ℕ
  co : List ℕ
  ep : List ℕ
  eo : List ℕ
  deriving DecidableEq, Repr

/-- The solved cube: identity permutations, zero orientations. -/
def solvedCubie : CubieCube :=
  { cp := [0, 1, 2, 3, 4, 5, 6, 7]
  , co := [0, 0, 0, 0, 0, 0, 0, 0]
  , ep := [0, 1, 2, 3, 4, 5, 6, 7, 8, 9, 10, 11]
  , eo := [0, 0, 0, 0, 0, 0, 0, 0, 0, 0, 0, 0] }

/-- Modelled from the spec: §4.1 `corner_multiply(a, b)` — permutation
composition `cp[i] = a.cp[b.cp[i]]` plus orientation addition mod 3 with
the carry from `b`'s `co` looked up through `a`'s `cp`. -/
def cornerMultiply (a b : CubieCube) : CubieCube :=
  { a with
    cp := (List.range 8).map (fun i => a.cp.getD (b.cp.getD i 0) 0)
    co := (List.range 8).map
      (fun i => (a.co.getD (b.cp.getD i 0) 0 + b.co.getD i 0) % 3) }

/-- Modelled from the spec: §4.1 `edge_multiply(a, b)` — the analogue on
the 12 edges, orientations mod 2. -/
def edgeMultiply (a b : CubieCube) : CubieCube :=
  { a with
    ep := (List.range 12).map (fun i => a.ep.getD (b.ep.getD i 0) 0)
    eo := (List.range 12).map
      (fun i => (a.eo.getD (b.ep.getD i 0) 0 + b.eo.getD i 0) % 2) }

/-- Modelled from the spec: §4.1 `multiply(a, b)` — both corner and edge
multiplication. -/
def cubieMultiply (a b : CubieCube) : CubieCube :=
  let c := cornerMultiply a b
  let e := edgeMultiply a b
  { cp := c.cp, co := c.co, ep := e.ep, eo := e.eo }

/-- `U_MOVE` from `src/src/moves.rs`. -/
def uMoveCube : CubieCube :=
  { cp := [3, 0, 1, 2, 4, 5, 6, 7]
  , co := [0, 0, 0, 0, 0, 0, 0, 0]
  , ep := [3, 0, 1, 2, 4, 5, 6, 7, 8, 9, 10, 11]
  , eo := [0, 0, 0, 0, 0, 0, 0, 0, 0, 0, 0, 0] }

/-- `R_MOVE` from `src/src/moves.rs`. -/
def rMoveCube : CubieCube :=
  { cp := [4, 1, 2, 0, 7, 5, 6, 3]
  , co := [2, 0, 0, 1, 1, 0, 0, 2]
  , ep := [8, 1, 2, 3, 11, 5, 6, 7, 4, 9, 10, 0]
  , eo := [0, 0, 0, 0, 0, 0, 0, 0, 0, 0, 0, 0] }

/-- `F_MOVE` from `src/src/moves.rs`. -/
def fMoveCube : CubieCube :=
  { cp := [1, 5, 2, 3, 0, 4, 6, 7]
  , co := [1, 2, 0, 0, 2, 1, 0, 0]
  , ep := [0, 9, 2, 3, 4, 8, 6, 7, 1, 5, 10, 11]
  , eo := [0, 1, 0, 0, 0, 1, 0, 0, 1, 1, 0, 0] }

/-- `D_MOVE` from `src/src/moves.rs`. -/
def dMoveCube : CubieCube :=
  { cp := [0, 1, 2, 3, 5, 6, 7, 4]
  , co := [0, 0, 0, 0, 0, 0, 0, 0]
  , ep := [0, 1, 2, 3, 5, 6, 7, 4, 8, 9, 10, 11]
  , eo := [0, 0, 0, 0, 0, 0, 0, 0, 0, 0, 0, 0] }

/-- `L_MOVE` from `src/src/moves.rs`. -/
def lMoveCube : CubieCube :=
  { cp := [0, 2, 6, 3, 4, 1, 5, 7]
  , co := [0, 1, 2, 0, 0, 2, 1, 0]
  , ep := [0, 1, 10, 3, 4, 5, 9, 7, 8, 2, 6, 11]
  , eo := [0, 0, 0, 0, 0, 0, 0, 0, 0, 0, 0, 0] }

/-- `B_MOVE` from `src/src/moves.rs`. -/
def bMoveCube : CubieCube :=
  { cp := [0, 1, 3, 7, 4, 5, 2, 6]
  , co := [0, 0, 1, 2, 0, 0, 2, 1]
  , ep := [0, 1, 2, 11, 4, 5, 6, 10, 8, 9, 3, 7]
  , eo := [0, 0, 0, 1, 0, 0, 0, 1, 0, 0, 1, 1] }

/-- The six basic move cubes in face order U, R, F, D, L, B (the order of
`ALL_COLORS`, matching the move-table build loops in `src/src/moves.rs`). -/
def basicMoveCubes : List CubieCube :=
  [uMoveCube, rMoveCube, fMoveCube, dMoveCube, lMoveCube, bMoveCube]

/-- Moves are numbered 0..17 in face-major order (spec §6.3): move `m`
turns face `m / 3` by `(m % 3) + 1` quarter turns.  `moveCube m` is the
cubie cube of that move. -/
def moveCube (m : ℕ) : CubieCube :=
  let basic := basicMoveCubes.getD (m / 3) solvedCubie
  (List.range (m % 3)).foldl (fun c _ => cubieMultiply c basic) basic

/-- Apply one numbered move to a cube (the cube is multiplied on the right
by the move cube, as in the move-table build loops of `src/src/moves.rs`). -/
def applyMove (c : CubieCube) (m : ℕ) : CubieCube :=
  cubieMultiply c (moveCube m)

/-- Apply a move sequence left to right. -/
def applyMoves (c : CubieCube) (ms : List ℕ) : CubieCube :=
  ms.foldl applyMove c

/-- Modelled from the spec: §4.2/§6.2 (crate module `facelet.rs` is not
under `src/`).  Facelet indices of the three stickers of each corner slot,
in the order URF..DRB; the first facelet of each triple is the one on the
U or D face.  Faces are laid out U = 0..8, R = 9..17, F = 18..26,
D = 27..35, L = 36..44, B = 45..53, row-major per §6.2. -/
def cornerFacelet : List (List ℕ) :=
  [[8, 9, 20], [6, 18, 38], [0, 36, 47], [2, 45, 11],
   [29, 26, 15], [27, 44, 24], [33, 53, 42], [35, 17, 51]]

/-- Modelled from the spec: facelet indices of the two stickers of each
edge slot, in the order UR..BR. -/
def edgeFacelet : List (List ℕ) :=
  [[5, 10], [7, 19], [3, 37], [1, 46], [32, 16], [28, 25], [30, 43],
   [34, 52], [23, 12], [21, 41], [50, 39], [48, 14]]

/-- Modelled from the spec: the face colours carried by each corner cubie,
as colour numbers U = 0, R = 1, F = 2, D = 3, L = 4, B = 5 (the order of
the corner's name, U/D sticker first). -/
def cornerColor : List (List ℕ) :=
  [[0, 1, 2], [0, 2, 4], [0, 4, 5], [0, 5, 1],
   [3, 2, 1], [3, 4, 2], [3, 5, 4], [3, 1, 5]]

/-- Modelled from the spec: the face colours carried by each edge cubie. -/
def edgeColor : List (List ℕ) :=
  [[0, 1], [0, 2], [0, 4], [0, 5], [3, 1], [3, 2], [3, 4], [3, 5],
   [2, 1], [2, 4], [5, 4], [5, 1]]

/-- Colour number of one facelet character, per the alphabet of §6.2. -/
def charColor (c : Char) : Option ℕ :=
  if c = 'U' then some 0 else if c = 'R' then some 1
  else if c = 'F' then some 2 else if c = 'D' then some 3
  else if c = 'L' then some 4 else if c = 'B' then some 5 else none

/-- Decode a 54-character facelet string into the list of its 54 colour
numbers; `none` on a bad length or alphabet. -/
def faceletColors (s : String) : Option (List ℕ) :=
  match s.data.mapM charColor with
  | some l => if l.length = 54 then some l else none
  | none => none

/-- Modelled from the spec: §4.2 step 2 — decode corner slot `i` of the
facelet list `f` to `(corner-id, orientation)`: the twist is the index of
the U/D sticker within the slot's facelet triple, and the corner id is
found by matching the two remaining colours against `cornerColor`. -/
def decodeCorner (f : List ℕ) (i : ℕ) : Option (ℕ × ℕ) :=
  let fs := cornerFacelet.getD i []
  match ([0, 1, 2].find? fun o =>
      f.getD (fs.getD o 0) 6 = 0 ∨ f.getD (fs.getD o 0) 6 = 3) with
  | none => none
  | some ori =>
    let col1 := f.getD (fs.getD ((ori + 1) % 3) 0) 6
    let col2 := f.getD (fs.getD ((ori + 2) % 3) 0) 6
    match ((List.range 8).find? fun j =>
        (cornerColor.getD j []).getD 1 6 = col1 ∧
        (cornerColor.getD j []).getD 2 6 = col2) with
    | none => none
    | some j => some (j, ori)

/-- Modelled from the spec: §4.2 step 3 — decode edge slot `i` to
`(edge-id, flip)`: flip 0 when the sticker pair matches an edge's colour
pair directly, 1 when it matches swapped. -/
def decodeEdge (f : List ℕ) (i : ℕ) : Option (ℕ × ℕ) :=
  let fs := edgeFacelet.getD i []
  let c0 := f.getD (fs.getD 0 0) 6
  let c1 := f.getD (fs.getD 1 0) 6
  match ((List.range 12).find? fun j =>
      (edgeColor.getD j []).getD 0 6 = c0 ∧ (edgeColor.getD j []).getD 1 6 = c1) with
  | some j => some (j, 0)
  | none =>
    match ((List.range 12).find? fun j =>
        (edgeColor.getD j []).getD 0 6 = c1 ∧ (edgeColor.getD j []).getD 1 6 = c0) with
    | some j => some (j, 1)
    | none => none

/-- Modelled from the spec: §4.2 `parse(facelet54) -> CubieState`, the
composition of the three steps on a facelet string (validation of the
alphabet and length, then the corner and edge sticker decodings). -/
def parseFacelets (s : String) : Option CubieCube :=
  match faceletColors s with
  | none => none
  | some f =>
    match (List.range 8).mapM (decodeCorner f), (List.range 12).mapM (decodeEdge f) with
    | some cs, some es =>
      some { cp := cs.map Prod.fst, co := cs.map Prod.snd
           , ep := es.map Prod.fst, eo := es.map Prod.snd }
    | _, _ => none

/-- `N_MOVE = 18` (spec §6.3; crate module `constants.rs` is not under
`src/`, the values are those of spec §3.2 and of the literals used in
`src/src/solver.rs` and `src/src/pruning.rs`). -/
def N_MOVE : ℕ := 18

/-- `N_PERM_4 = 24`. -/
def N_PERM_4 : ℕ := 24

/-- `N_FLIP = 2048`. -/
def N_FLIP : ℕ := 2048

/-- `N_TWIST = 2187`. -/
def N_TWIST : ℕ := 2187

/-- `N_UD_EDGES = 40320`. -/
def N_UD_EDGES : ℕ := 40320

/-- `N_CORNERS = 40320`. -/
def N_CORNERS : ℕ := 40320

/-- Rotate the segment `l[0..=j]` of a list left by one place, the
`rotate_left(arr, 0, j)` helper of the coordinate encoders. -/
def rotLeftSeg (l : List ℕ) (j : ℕ) : List ℕ :=
  (l.take (j + 1)).rotate 1 ++ l.drop (j + 1)

/-- Rotate the segment `l[0..=j]` left until `l[j] = target`, for at most
`fuel` rotations; returns the rotation count and the rotated list. -/
def findRotAux : ℕ → List ℕ → ℕ → ℕ → ℕ × List ℕ
  | 0, l, _, _ => (0, l)
  | fuel + 1, l, j, target =>
    if l.getD j 0 = target then (0, l)
    else
      let p := findRotAux fuel (rotLeftSeg l j) j target
      (p.1 + 1, p.2)

/-- Modelled from the spec: the permutation-rank loop shared by the
coordinate encoders of the missing `cubie.rs` (spec §3.2 and §4.3): for
`j` from the top position down to 1, count the left-rotations of
`l[0..=j]` needed to bring the value `j + off` to position `j` and
accumulate `b := (j+1)·b + count`.  For a permutation of
`off..off+n` this is a bijection onto `0..(n+1)!`, 0 on the identity. -/
def permRankLoop (off : ℕ) : ℕ → List ℕ → ℕ → ℕ
  | 0, _, b => b
  | j + 1, l, b =>
    let p := findRotAux (j + 1) l (j + 1) (j + 1 + off)
    permRankLoop off j p.2 ((j + 2) * b + p.1)

/-- Modelled from the spec: the combination-rank loop of the edge-position
encoders — scanning slot `j` from 11 down to 0, each slot holding one of
the four tracked edges adds `C(11-j, x+1)` where `x` counts tracked edges
already seen; the list argument is the edge permutation reversed, so the
running index `i` equals `11 - j`. -/
def chooseAccLoop (lo hi : ℕ) : List ℕ → ℕ → ℕ → ℕ → ℕ
  | [], _, a, _ => a
  | v :: rest, i, a, x =>
    if lo ≤ v ∧ v ≤ hi then
      chooseAccLoop lo hi rest (i + 1) (a + Nat.choose i (x + 1)) (x + 1)
    else chooseAccLoop lo hi rest (i + 1) a x

/-- Modelled from the spec: `twist` coordinate, base-3 value of the first
seven corner orientations (§3.2, range 0..2187). -/
def getTwist (cc : CubieCube) : ℕ :=
  (cc.co.take 7).foldl (fun r o => 3 * r + o) 0

/-- Modelled from the spec: `flip` coordinate, base-2 value of the first
eleven edge orientations (§3.2, range 0..2048). -/
def getFlip (cc : CubieCube) : ℕ :=
  (cc.eo.take 11).foldl (fun r o => 2 * r + o) 0

/-- Modelled from the spec: `slice_sorted` coordinate — ordered positions
of the four slice edges FR, FL, BL, BR (ids 8..11) among the 12 slots
(§3.2, range 0..11880, 0 for the solved cube): 24 times the combination
rank of the occupied slot set plus the permutation rank of the four edges
in slot order. -/
def getSliceSorted (cc : CubieCube) : ℕ :=
  let a := chooseAccLoop 8 11 cc.ep.reverse 0 0 0
  let edge4 := cc.ep.filter (fun v => decide (8 ≤ v ∧ v ≤ 11))
  24 * a + permRankLoop 8 3 edge4 0

/-- Modelled from the spec: `u_edges` coordinate — ordered positions of
the U-layer edges UR, UF, UL, UB (ids 0..3), computed on the edge
permutation rotated right by four slots (which makes the solved value
1656, the value stated in §3.2 and in `src/src/coord.rs`). -/
def getUEdges (cc : CubieCube) : ℕ :=
  let epMod := cc.ep.drop 8 ++ cc.ep.take 8
  let a := chooseAccLoop 0 3 epMod.reverse 0 0 0
  let edge4 := epMod.filter (fun v => decide (v ≤ 3))
  24 * a + permRankLoop 0 3 edge4 0

/-- Modelled from the spec: `d_edges` coordinate — ordered positions of
the D-layer edges DR, DF, DL, DB (ids 4..7) on the same rotated edge
permutation (solved value 0). -/
def getDEdges (cc : CubieCube) : ℕ :=
  let epMod := cc.ep.drop 8 ++ cc.ep.take 8
  let a := chooseAccLoop 4 7 epMod.reverse 0 0 0
  let edge4 := epMod.filter (fun v => decide (4 ≤ v ∧ v ≤ 7))
  24 * a + permRankLoop 4 3 edge4 0

/-- Modelled from the spec: `corners` coordinate — rank of the corner
permutation (§3.2, range 0..40320). -/
def getCorners (cc : CubieCube) : ℕ :=
  permRankLoop 0 7 cc.cp 0

/-- Modelled from the spec: `ud_edges` coordinate — rank of the
permutation of the eight U∪D edges over the first eight slots, defined
when the cube is in the phase-2 subgroup (§3.2, range 0..40320). -/
def getUdEdges (cc : CubieCube) : ℕ :=
  permRankLoop 0 7 (cc.ep.take 8) 0

/-- Is `l` a permutation of `0..n`? -/
def isPermOf (l : List ℕ) (n : ℕ) : Bool :=
  l.length = n && (List.range n).all (fun i => l.contains i)

/-- Number of inversions of a list, whose parity is the permutation
sign. -/
def inversions : List ℕ → ℕ
  | [] => 0
  | x :: rest => rest.countP (fun y => decide (y < x)) + inversions rest

/-- Modelled from the spec: §4.1 `verify()` / `is_solvable()` — the four
algebraic invariants of §3.1: `cp` and `ep` are permutations,
`sum(co) mod 3 = 0`, `sum(eo) mod 2 = 0`, and `sign(cp) = sign(ep)`. -/
def isSolvable (cc : CubieCube) : Bool :=
  isPermOf cc.cp 8 && isPermOf cc.ep 12 &&
  cc.co.sum % 3 = 0 && cc.eo.sum % 2 = 0 &&
  inversions cc.cp % 2 = inversions cc.ep % 2

/-- Modelled from the spec: §7 error kinds (crate module `error.rs` is
not under `src/`); `codecUnexpectedEnd` is the bincode `UnexpectedEnd`
decode error surfaced by `decode_table` in `src/src/lib.rs`. -/
inductive KociembaError where
  | invalidFaceletString
  | invalidFaceletValue
  | invalidCubieValue
  | invalidScramble
  | ioError
  | codecError
  | codecUnexpectedEnd (additional : ℕ)
  deriving DecidableEq, Repr

/-- `decode_table` from `src/src/lib.rs`, with the bincode decoder made a
parameter: `dec bytes` yields the decoded value and the number of bytes
consumed (`none` for a bincode decode failure).  Trailing bytes are
refused with `UnexpectedEnd`. -/
def decodeTable {T : Type} (dec : List ℕ → Option (T × ℕ)) (bytes : List ℕ) :
    Except KociembaError T :=
  match dec bytes with
  | none => .error .codecError
  | some (v, written) =>
    let additional := bytes.length - written
    if additional ≠ 0 then .error (.codecUnexpectedEnd additional) else .ok v

/-- Symmetry-table lookups (the `SymmetriesTables` fields used by
`CoordCube::from_cubie`; `symmetries.rs` is not under `src/`, so the
tables are opaque lookup functions here). -/
structure SymTables where
  flipslice_classidx : ℕ → ℕ
  flipslice_sym : ℕ → ℕ
  flipslice_rep : ℕ → ℕ
  corner_classidx : ℕ → ℕ
  corner_sym : ℕ → ℕ
  corner_rep : ℕ → ℕ

/-- The `CoordCube` struct of `src/src/coord.rs`, all fields as `ℕ`. -/
structure CoordCube where
  twist : ℕ
  flip : ℕ
  slice_sorted : ℕ
  u_edges : ℕ
  d_edges : ℕ
  corners : ℕ
  ud_edges : ℕ
  flipslice_classidx : ℕ
  flipslice_sym : ℕ
  flipslice_rep : ℕ
  corner_classidx : ℕ
  corner_sym : ℕ
  corner_rep : ℕ
  deriving DecidableEq, Repr

/-- `CoordCube::from_cubie` from `src/src/coord.rs` (lines 70–114):
rejects unsolvable cubes, extracts the seven coordinates and the
symmetry-reduced data, and fills `ud_edges` with the real coordinate only
when `slice_sorted < N_PERM_4`, the sentinel 65535 otherwise. -/
def fromCubie (sy : SymTables) (cc : CubieCube) : Option CoordCube :=
  if isSolvable cc then
    some { twist := getTwist cc
         , flip := getFlip cc
         , slice_sorted := getSliceSorted cc
         , u_edges := getUEdges cc
         , d_edges := getDEdges cc
         , corners := getCorners cc
         , ud_edges :=
             if getSliceSorted cc < N_PERM_4 then getUdEdges cc else 65535
         , flipslice_classidx :=
             sy.flipslice_classidx
               (N_FLIP * (getSliceSorted cc / N_PERM_4) + getFlip cc)
         , flipslice_sym :=
             sy.flipslice_sym
               (N_FLIP * (getSliceSorted cc / N_PERM_4) + getFlip cc)
         , flipslice_rep :=
             sy.flipslice_rep
               (sy.flipslice_classidx
                 (N_FLIP * (getSliceSorted cc / N_PERM_4) + getFlip cc))
         , corner_classidx := sy.corner_classidx (getCorners cc)
         , corner_sym := sy.corner_sym (getCorners cc)
         , corner_rep := sy.corner_rep (sy.corner_classidx (getCorners cc)) }
  else none

/-- `CoordCube::phase2_move` from `src/src/coord.rs` (lines 155–167), the
three move tables passed as the loaded vectors.  When `ud_edges` holds
the phase-1 sentinel 65535 the source indexes the last row of
`ud_edges_move` at `N_UD_EDGES * N_MOVE + m - N_MOVE`. -/
def phase2Move (slice_sorted_move corners_move ud_edges_move : List ℕ)
    (c : CoordCube) (m : ℕ) : CoordCube :=
  { c with
    slice_sorted := slice_sorted_move.getD (N_MOVE * c.slice_sorted + m) 0
    corners := corners_move.getD (N_MOVE * c.corners + m) 0
    ud_edges :=
      if c.ud_edges = 65535 then
        ud_edges_move.getD (N_UD_EDGES * N_MOVE + m - N_MOVE) 0
      else ud_edges_move.getD (N_MOVE * c.ud_edges + m) 0 }

/-- One entry of the `distance` helper built in `PrunningTables::default`
(`src/src/pruning.rs` lines 20–42): write `(i/3)*3 + j`, add 3 when
`i % 3 = 2 ∧ j = 0`, subtract 3 when `i % 3 = 0 ∧ j = 2` and the written
value is at least 3. -/
def distanceEntry (i j : ℕ) : ℕ :=
  let base := (i / 3) * 3 + j
  if i % 3 = 2 ∧ j = 0 then base + 3
  else if i % 3 = 0 ∧ j = 2 then (if 3 ≤ base then base - 3 else base)
  else base

/-- The 60-entry `distance` array of `PrunningTables::default`, filled for
`i` in 0..20 and `j` in 0..3 at index `3*i + j`. -/
def distanceTable : List ℕ :=
  (List.range 20).flatMap (fun i => (List.range 3).map (fun j => distanceEntry i j))

/-- The table fields of `SolverTables` consulted by
`SolverThread::get_depth_phase2` (`src/src/solver.rs`); the vectors are
opaque lookup functions since their multi-megabyte contents are built at
run time. `corners_ud_edges_depth3` is the packed `u32` word array. -/
structure Phase2Tables where
  corner_classidx : ℕ → ℕ
  corner_sym : ℕ → ℕ
  ud_edges_conj : ℕ → ℕ
  corners_ud_edges_depth3 : ℕ → ℕ
  corners_move : ℕ → ℕ
  ud_edges_move : ℕ → ℕ

/-- `PrunningTables::get_corners_ud_edges_depth3` from
`src/src/pruning.rs` (lines 55–59): two-bit extraction from the packed
word at `ix / 16`. -/
def getCornersUdEdgesDepth3 (t : Phase2Tables) (ix : ℕ) : ℕ :=
  ((t.corners_ud_edges_depth3 (ix / 16)) >>> ((ix % 16) * 2)) &&& 3

/-- The ten phase-2 moves in the order iterated by the source:
U, U2, U3, R2, F2, D, D2, D3, L2, B2. -/
def phase2Moves : List ℕ := [0, 1, 2, 4, 7, 9, 10, 11, 13, 16]

/-- The symmetry-reduced phase-2 pruning index used throughout
`get_depth_phase2`: `N_UD_EDGES * corner_classidx[corners] +
ud_edges_conj[(ud_edges << 4) + corner_sym[corners]]`. -/
def depthPhase2Index (t : Phase2Tables) (corners ud_edges : ℕ) : ℕ :=
  N_UD_EDGES * t.corner_classidx corners +
    t.ud_edges_conj ((ud_edges <<< 4) + t.corner_sym corners)

/-- One pass of the inner `for m in [...]` of `get_depth_phase2`: the
first phase-2 move whose image entry equals `depth_mod3 - 1`. -/
def depthPhase2Step (t : Phase2Tables) (corners ud_edges depth_mod3 : ℕ) :
    Option (ℕ × ℕ) :=
  phase2Moves.findSome? (fun m =>
    let corners1 := t.corners_move (N_MOVE * corners + m)
    let ud_edges1 := t.ud_edges_move (N_MOVE * ud_edges + m)
    if getCornersUdEdgesDepth3 t (depthPhase2Index t corners1 ud_edges1) =
        depth_mod3 - 1
    then some (corners1, ud_edges1) else none)

/-- The `while corners != SOLVED || ud_edges != SOLVED` loop of
`get_depth_phase2`, fuel-bounded (the source iterates until the solved
pair is reached; with the real tables at most 11 steps are needed, and
on exotic tables where no move matches the source would spin forever —
the fuel returns the current depth instead). -/
def getDepthPhase2Loop (t : Phase2Tables) :
    ℕ → ℕ → ℕ → ℕ → ℕ → ℕ
  | 0, _, _, _, depth => depth
  | fuel + 1, corners, ud_edges, depth_mod3, depth =>
    if corners = 0 ∧ ud_edges = 0 then depth
    else
      let dm3 := if depth_mod3 = 0 then 3 else depth_mod3
      match depthPhase2Step t corners ud_edges dm3 with
      | some p => getDepthPhase2Loop t fuel p.1 p.2 (dm3 - 1) (depth + 1)
      | none => depth

/-- `SolverThread::get_depth_phase2` from `src/src/solver.rs`
(lines 350–405): look up the symmetry-reduced mod-3 entry; an unfilled
entry (value 3) short-circuits to 11, otherwise the exact depth is
reconstructed by walking to the solved pair. -/
def getDepthPhase2 (t : Phase2Tables) (corners ud_edges : ℕ) : ℕ :=
  let depth_mod3 := getCornersUdEdgesDepth3 t (depthPhase2Index t corners ud_edges)
  if depth_mod3 = 3 then 11
  else getDepthPhase2Loop t 11 corners ud_edges depth_mod3 0

/-- The rotational long-diagonal symmetry indices checked by `solver`
(`src/src/solver.rs` line 135). -/
def rotationalSyms : List ℕ := [16, 20, 24, 28]

/-- The worker index list `tr` computed by `solver` (`src/src/solver.rs`
lines 134–148) from the input cube's symmetry index list: `[0, 3]` when a
rotational long-diagonal symmetry is present, `[0, 1, 2, 3, 4, 5]`
otherwise; indices `≥ 3` (the inverse-cube workers) are dropped when an
anti-symmetry (index in 48..96) is present. -/
def trList (syms : List ℕ) : List ℕ :=
  let tr := if syms.any (fun s => rotationalSyms.contains s) then [0, 3]
            else [0, 1, 2, 3, 4, 5]
  if syms.any (fun s => decide (48 ≤ s ∧ s < 96)) then
    tr.filter (fun x => decide (x < 3))
  else tr

/-- The `(rot, inv)` pairs of the launched workers: worker `i` is spawned
with `rot = i % 3`, `inv = i / 3` (`src/src/solver.rs` lines 159–163). -/
def workerList (syms : List ℕ) : List (ℕ × ℕ) :=
  (trList syms).map (fun i => (i % 3, i / 3))

/-- The state shared by the solver threads through `Arc<Mutex<..>>`
(`src/src/solver.rs` lines 151–153): the solution log, seeded with one
empty entry, and the termination flag. -/
structure SharedState where
  solutions : List (List ℕ)
  terminated : Bool
  deriving DecidableEq, Repr

/-- The per-thread mutable fields of `SolverThread` relevant to solution
recording: `shortest_length` (each thread is constructed with its own
`vec![999]`, `src/src/solver.rs` line 168) and `phase2_done`. -/
structure ThreadState where
  shortest_length : List ℕ
  phase2_done : Bool
  deriving DecidableEq, Repr

/-- Un-invert a maneuver found on the inverse cube: reverse it and replace
each move by its inverse, `ALL_MOVES[(m / 3) * 3 + (2 - m % 3)]`
(`src/src/solver.rs` lines 433–439). -/
def invertMoves (man : List ℕ) : List ℕ :=
  man.reverse.map (fun m => (m / 3) * 3 + (2 - m % 3))

/-- The solution-recording branch of `SolverThread::search_phase2`
(`src/src/solver.rs` lines 423–458), entered at `togo_phase2 = 0` with
`slice_sorted = 0`: append `sofar_phase1 ++ sofar_phase2`, rewritten for
inversion and rotation, to the shared log when it improves on the log's
last entry; store its length in the thread's own `shortest_length`; set
the shared termination flag when the thread's `shortest_length[0]` is
within `ret_length`; mark `phase2_done`. -/
def storeSolution (conj_move : ℕ → ℕ) (rot inv ret_length : ℕ)
    (sofar1 sofar2 : List ℕ) (sh : SharedState) (th : ThreadState) :
    SharedState × ThreadState :=
  let man := sofar1 ++ sofar2
  let lslen := (sh.solutions.getLastD []).length
  let p :=
    if sh.solutions.length = 1 ∨ lslen > man.length then
      let man1 := if inv = 1 then invertMoves man else man
      let man2 := man1.map (fun m => conj_move (N_MOVE * 16 * rot + m))
      (sh.solutions ++ [man2], [man2.length])
    else (sh.solutions, th.shortest_length)
  let term := if p.2.getD 0 0 ≤ ret_length then true else sh.terminated
  ({ solutions := p.1, terminated := term },
   { shortest_length := p.2, phase2_done := true })

/-- The phase-2 length cap computed at every phase-1 terminal,
`min(shortest_length[0] - sofar_phase1.len(), 11)`
(`src/src/solver.rs` line 582). -/
def togo2Limit (shortest sofar1Len : ℕ) : ℕ :=
  min (shortest - sofar1Len) 11

/-- The deadline check a worker performs at each phase-1 terminal
(`src/src/solver.rs` lines 548–556): the termination flag becomes true
when the elapsed time exceeds the timeout AND the shared solution log
holds more than its initial empty entry; otherwise it keeps its value.
Durations are modelled as rationals. -/
def deadlineCheck (elapsed timeout : ℚ) (solutions : List (List ℕ))
    (terminated : Bool) : Bool :=
  if elapsed > timeout ∧ solutions.length > 1 then true else terminated

/-- The result extraction of `solver` (`src/src/solver.rs` lines 181–194):
with both facelet strings parsed and verified, the call returns `Ok` of
the log's last solution when more than the seeded empty entry is present,
and `Ok` of the empty default otherwise — never an error. -/
def solverReturn (sols : List (List ℕ)) : Except KociembaError (List ℕ) :=
  if sols.length > 1 then .ok (sols.getLastD []) else .ok []

/-- The fixed test facelet string of `test_solve` and spec §8. -/
def scrambleFacelets : String :=
  "RLLBUFUUUBDURRBBUBRLRRFDFDDLLLUDFLRRDDFRLFDBUBFFLBBDUF"

/-- The solved facelet string (the goal string of `solve`). -/
def solvedFacelets : String :=
  "UUUUUUUUURRRRRRRRRFFFFFFFFFDDDDDDDDDLLLLLLLLLBBBBBBBBB"

/-- The 17-move answer `R D2 B2 R2 L2 B' U F' D2 R B2 R2 F2 B2 R2 D2 B`
asserted by `test_solve`, in the move numbering of §6.3 (U=0, U2=1, U3=2,
R=3, R2=4, R3=5, F=6, F2=7, F3=8, D=9, D2=10, D3=11, L=12, L2=13, L3=14,
B=15, B2=16, B3=17). -/
def testSolutionMoves : List ℕ :=
  [3, 10, 16, 4, 13, 17, 0, 8, 10, 3, 16, 4, 7, 16, 4, 10, 15]

/-- Trivial symmetry lookup tables (all lookups 0), used to instantiate
theorems that hold for any `SymTables`. -/
def trivialSymTables : SymTables :=
  ⟨fun _ => 0, fun _ => 0, fun _ => 0, fun _ => 0, fun _ => 0, fun _ => 0⟩

/-- The freshly constructed `PrunningTables` phase-2 word array is all
`0xffffffff` (`src/src/pruning.rs` line 37), so every packed entry reads
as the sentinel 3; these lookup tables reproduce that state. -/
def unfilledPhase2Tables : Phase2Tables :=
  ⟨fun _ => 0, fun _ => 0, fun _ => 0, fun _ => 4294967295, fun _ => 0, fun _ => 0⟩

/-- A `CoordCube` carrying the phase-1 sentinel in `ud_edges` (solved in
every other coordinate), for instantiating `phase2Move` statements. -/
def sentinelCoordCube : CoordCube :=
  { twist := 0, flip := 0, slice_sorted := 0, u_edges := 1656, d_edges := 0
  , corners := 0, ud_edges := 65535, flipslice_classidx := 0
  , flipslice_sym := 0, flipslice_rep := 0, corner_classidx := 0
  , corner_sym := 0, corner_rep := 0 }

/-- The rotation count found by `findRotAux` never exceeds its fuel. -/
theorem findRotAux_fst_le (fuel : ℕ) : ∀ (l : List ℕ) (j target : ℕ),
    (findRotAux fuel l j target).1 ≤ fuel := by
  induction fuel with
  | zero => intro l j target; simp [findRotAux]
  | succ n ih =>
    intro l j target
    unfold findRotAux
    split
    · exact Nat.zero_le _
    · exact Nat.succ_le_succ (ih _ _ _)

/-- The permutation-rank loop started at position `j` with accumulator `b`
stays below `(j+1)! · (b+1)`; in particular a rank over 8 positions is
below `8! = 40320`. -/
theorem permRankLoop_lt (off : ℕ) : ∀ (j : ℕ) (l : List ℕ) (b : ℕ),
    permRankLoop off j l b < Nat.factorial (j + 1) * (b + 1) := by
  intro j
  induction j with
  | zero => intro l b; simp [permRankLoop, Nat.factorial]
  | succ n ih =>
    intro l b
    have hk : (findRotAux (n + 1) l (n + 1) (n + 1 + off)).1 ≤ n + 1 :=
      findRotAux_fst_le (n + 1) l (n + 1) (n + 1 + off)
    have h1 : permRankLoop off (n + 1) l b =
        permRankLoop off n (findRotAux (n + 1) l (n + 1) (n + 1 + off)).2
          ((n + 2) * b + (findRotAux (n + 1) l (n + 1) (n + 1 + off)).1) := rfl
    rw [h1]
    refine lt_of_lt_of_le (ih _ _) ?_
    calc Nat.factorial (n + 1) *
          ((n + 2) * b + (findRotAux (n + 1) l (n + 1) (n + 1 + off)).1 + 1)
        ≤ Nat.factorial (n + 1) * ((n + 2) * (b + 1)) :=
          Nat.mul_le_mul le_rfl (by rw [Nat.mul_succ]; omega)
      _ = Nat.factorial (n + 2) * (b + 1) := by
          rw [Nat.factorial_succ (n + 1)]; ring

/-- The `ud_edges` coordinate extracted from any cubie cube is below
`N_UD_EDGES = 40320`, in particular never the sentinel 65535. -/
theorem getUdEdges_lt (cc : CubieCube) : getUdEdges cc < 40320 := by
  have h := permRankLoop_lt 0 7 (cc.ep.take 8) 0
  have h8 : Nat.factorial (7 + 1) * (0 + 1) = 40320 := by decide
  rw [h8] at h
  exact h

/-- C1: the facelet string
`RLLBUFUUUBDURRBBUBRLRRFDFDDLLLUDFLRRDDFRLFDBUBFFLBBDUF` parses to a
cube that the 17-move sequence
`R D2 B2 R2 L2 B' U F' D2 R B2 R2 F2 B2 R2 D2 B` (the answer asserted by
`test_solve` in `src/src/solver.rs`) restores to the solved cube, and
that sequence has length 17 ≤ 20, so it is a valid `solve` answer within
the `max_length` bound of 20. -/
theorem test_scramble_restored_by_17_move_answer :
    (parseFacelets scrambleFacelets).map
        (fun cc => applyMoves cc testSolutionMoves) = some solvedCubie ∧
    testSolutionMoves.length = 17 ∧ 17 ≤ 20 := by
  exact ⟨by decide, by decide, by decide⟩

/-- C2 counterexample: a cube whose symmetry list is `[0, 16]` (the
identity and one rotational long-diagonal symmetry, no anti-symmetry)
makes `solver` launch the worker `(rot, inv) = (0, 0)` as well — the
worker list is `[(0, 0), (0, 1)]`, not the single worker `(0, 1)` the
claim states. -/
theorem rotsym_worker_list_counterexample :
    workerList [0, 16] = [(0, 0), (0, 1)] ∧
    (0, 0) ∈ workerList [0, 16] ∧ ((0 : ℕ), (0 : ℕ)) ≠ (0, 1) := by
  exact ⟨by decide, by decide, by decide⟩

/-- C2 (amended): when the symmetry list meets `{16, 20, 24, 28}`,
`solver` searches only `rot = 0` workers: both `(0, 0)` and `(0, 1)`, or
just `(0, 0)` when the cube also has an anti-symmetry; no `rot = 1` or
`rot = 2` worker is launched. -/
theorem rotsym_workers_rot_zero_only (syms : List ℕ)
    (h : syms.any (fun s => rotationalSyms.contains s) = true) :
    workerList syms = [(0, 0), (0, 1)] ∨ workerList syms = [(0, 0)] := by
  have h' : ∃ x ∈ syms, x ∈ rotationalSyms := by simpa using h
  by_cases h2 : ∃ x ∈ syms, 48 ≤ x ∧ x < 96
  · right; simp [workerList, trList, h', h2]
  · left; simp [workerList, trList, h', h2]

/-- C2 witness: the amended statement at the symmetry list `[16]`. -/
theorem rotsym_workers_rot_zero_only_witness :
    (([16] : List ℕ).any (fun s => rotationalSyms.contains s) = true) ∧
    (workerList [16] = [(0, 0), (0, 1)] ∨ workerList [16] = [(0, 0)]) :=
  ⟨by decide, rotsym_workers_rot_zero_only [16] (by decide)⟩

/-- C3: `shortest_length` is not shared between workers.  Each thread is
spawned with its own `vec![999]` (`src/src/solver.rs` line 168).  Here
worker A (rot 0, inv 0, identity conjugation) records the one-move
solution `[U]` with `ret_length = 20`: the shared log grows to
`[[], [U]]` and A's own `shortest_length` becomes `[1]`, but worker B's
`shortest_length` is still the `[999]` it was spawned with, so the
phase-2 cap B computes is `min(999 - 0, 11) = 11` — not the
`min(1 - 0, 11) = 1` it would use if the value were the shared
mutex-protected scalar the claim (and the struct's own doc comment)
describe. -/
theorem shortest_length_update_not_observed :
    (storeSolution id 0 0 20 [0] [] { solutions := [[]], terminated := false }
      { shortest_length := [999], phase2_done := false }).1.solutions = [[], [0]] ∧
    (storeSolution id 0 0 20 [0] [] { solutions := [[]], terminated := false }
      { shortest_length := [999], phase2_done := false }).2.shortest_length = [1] ∧
    ({ shortest_length := [999], phase2_done := false } : ThreadState).shortest_length
      = [999] ∧
    togo2Limit 999 0 = 11 ∧ togo2Limit 1 0 = 1 := by
  exact ⟨by decide, by decide, by decide, by decide, by decide⟩

/-- C4: whenever the symmetry-reduced `corners_ud_edges_depth3` entry for
a `(corners, ud_edges)` pair reads the sentinel value 3,
`get_depth_phase2` returns exactly 11 (the early return of
`src/src/solver.rs` lines 361–364). -/
theorem sentinel_phase2_entry_gives_depth_11 (t : Phase2Tables)
    (corners ud_edges : ℕ)
    (h : getCornersUdEdgesDepth3 t (depthPhase2Index t corners ud_edges) = 3) :
    getDepthPhase2 t corners ud_edges = 11 := by
  simp [getDepthPhase2, h]

/-- C4 witness: with the freshly initialized all-`0xffffffff` phase-2
table every entry reads 3, and `get_depth_phase2 5 7` is 11. -/
theorem sentinel_phase2_entry_gives_depth_11_witness :
    getCornersUdEdgesDepth3 unfilledPhase2Tables
        (depthPhase2Index unfilledPhase2Tables 5 7) = 3 ∧
    getDepthPhase2 unfilledPhase2Tables 5 7 = 11 :=
  ⟨by decide, sentinel_phase2_entry_gives_depth_11 unfilledPhase2Tables 5 7 (by decide)⟩

/-- C5: for every old depth `d < 20` and every child depth within one of
`d`, the `distance` helper of `PrunningTables::default` recovers the
child's absolute depth from `3·d + (child mod 3)`. -/
theorem distance_table_recovers_child_depth (d dNew : ℕ) (hd : d < 20)
    (h1 : d ≤ dNew + 1) (h2 : dNew ≤ d + 1) :
    distanceTable.getD (3 * d + dNew % 3) 0 = dNew := by
  have key : ∀ a, a < 20 → ∀ e, e < 21 → a ≤ e + 1 → e ≤ a + 1 →
      distanceTable.getD (3 * a + e % 3) 0 = e := by decide
  exact key d hd dNew (by omega) h1 h2

/-- C5 witness: the statement at old depth 5 and child depth 6. -/
theorem distance_table_recovers_child_depth_witness :
    (5 < 20 ∧ 5 ≤ 6 + 1 ∧ 6 ≤ 5 + 1) ∧
    distanceTable.getD (3 * 5 + 6 % 3) 0 = 6 :=
  ⟨⟨by decide, by decide, by decide⟩,
   distance_table_recovers_child_depth 5 6 (by decide) (by decide) (by decide)⟩

/-- C6: for every solvable cubie cube, `CoordCube::from_cubie` succeeds
and its `ud_edges` field is the sentinel 65535 exactly when the cube's
`slice_sorted` coordinate is at least `N_PERM_4 = 24` (the cube is not in
the phase-2 subgroup); below 24 the field is the cube's real `ud_edges`
coordinate (which is below 40320, hence never the sentinel). -/
theorem from_cubie_ud_edges_sentinel_iff (sy : SymTables) (cc : CubieCube)
    (h : isSolvable cc = true) :
    ((fromCubie sy cc).map CoordCube.ud_edges = some 65535 ↔
      N_PERM_4 ≤ getSliceSorted cc) ∧
    (getSliceSorted cc < N_PERM_4 →
      (fromCubie sy cc).map CoordCube.ud_edges = some (getUdEdges cc)) := by
  have hm : (fromCubie sy cc).map CoordCube.ud_edges =
      some (if getSliceSorted cc < N_PERM_4 then getUdEdges cc else 65535) := by
    rw [fromCubie, if_pos h]
    rfl
  rw [hm]
  by_cases hs : getSliceSorted cc < N_PERM_4
  · rw [if_pos hs]
    have hlt := getUdEdges_lt cc
    refine ⟨⟨fun he => ?_, fun hge => ?_⟩, fun _ => rfl⟩
    · have he' := Option.some.inj he
      omega
    · exact absurd hs (by omega)
  · rw [if_neg hs]
    exact ⟨⟨fun _ => by omega, fun _ => rfl⟩, fun hs2 => absurd hs2 hs⟩

/-- C6 witness: the statement at the solved cube (slice_sorted 0 < 24, so
the `ud_edges` field is the real coordinate 0, not the sentinel) with the
trivial symmetry tables. -/
theorem from_cubie_ud_edges_sentinel_iff_witness :
    isSolvable solvedCubie = true ∧
    (((fromCubie trivialSymTables solvedCubie).map CoordCube.ud_edges = some 65535 ↔
        N_PERM_4 ≤ getSliceSorted solvedCubie) ∧
     (getSliceSorted solvedCubie < N_PERM_4 →
        (fromCubie trivialSymTables solvedCubie).map CoordCube.ud_edges =
          some (getUdEdges solvedCubie))) :=
  ⟨by decide, from_cubie_ud_edges_sentinel_iff trivialSymTables solvedCubie (by decide)⟩

/-- C7: the solved facelet string parses to the solved cube; at that cube
a worker's first phase-2 terminal records the empty maneuver, growing the
shared log to `[[], []]`; the `solver` result extraction then returns
`Ok` with the empty solution; and the extraction returns `Ok` for every
possible shared log — once the input strings have parsed and verified,
no error is ever produced. -/
theorem solved_cube_returns_ok_empty_solution :
    parseFacelets solvedFacelets = some solvedCubie ∧
    (storeSolution id 0 0 20 [] [] { solutions := [[]], terminated := false }
      { shortest_length := [999], phase2_done := false }).1.solutions = [[], []] ∧
    solverReturn [[], []] = .ok [] ∧
    (∀ sols : List (List ℕ), ∃ v, solverReturn sols = Except.ok v) := by
  refine ⟨by decide, by decide, by rfl, ?_⟩
  intro sols
  unfold solverReturn
  by_cases h : sols.length > 1
  · rw [if_pos h]; exact ⟨_, rfl⟩
  · rw [if_neg h]; exact ⟨_, rfl⟩

/-- C8: the deadline check (`src/src/solver.rs` lines 548–556) sets the
termination flag exactly when the elapsed time exceeds the timeout AND
the shared solution log holds more than its seeded empty entry; in
particular, while the log is still the initial `[[]]` (no solution
posted) the deadline never terminates the search. -/
theorem deadline_requires_posted_solution (e t : ℚ) (sols : List (List ℕ)) :
    (deadlineCheck e t sols false = true ↔ t < e ∧ 1 < sols.length) ∧
    deadlineCheck e t [[]] false = false := by
  constructor
  · constructor
    · intro h
      by_cases hc : e > t ∧ sols.length > 1
      · exact hc
      · rw [deadlineCheck, if_neg hc] at h; exact absurd h (by simp)
    · intro hc
      rw [deadlineCheck, if_pos hc]
  · rw [deadlineCheck, if_neg]
    rintro ⟨-, h2⟩
    simp at h2

/-- C9: `decode_table` (`src/src/lib.rs` lines 58–66) returns the
`UnexpectedEnd` error whenever the bincode decoder produces a value
without consuming every byte of the slice, and returns the decoded value
only when the slice is consumed exactly. -/
theorem decode_table_refuses_trailing_bytes {T : Type}
    (dec : List ℕ → Option (T × ℕ)) (bytes : List ℕ) (v : T) (written : ℕ)
    (h : dec bytes = some (v, written)) :
    (written < bytes.length →
      decodeTable dec bytes =
        .error (.codecUnexpectedEnd (bytes.length - written))) ∧
    (written = bytes.length → decodeTable dec bytes = .ok v) := by
  constructor
  · intro hw
    have hne : bytes.length - written ≠ 0 := by omega
    simp [decodeTable, h, hne]
  · intro hw
    have hz : bytes.length - written = 0 := by omega
    simp [decodeTable, h, hz]

/-- C9 witness: a decoder consuming one byte of a two-byte slice is
refused with `UnexpectedEnd 1`. -/
theorem decode_table_refuses_trailing_bytes_witness :
    ((fun _ : List ℕ => some ((42 : ℕ), 1)) [7, 7] = some (42, 1)) ∧
    ((1 < ([7, 7] : List ℕ).length →
      decodeTable (fun _ : List ℕ => some ((42 : ℕ), 1)) [7, 7] =
        .error (.codecUnexpectedEnd (([7, 7] : List ℕ).length - 1))) ∧
     (1 = ([7, 7] : List ℕ).length →
      decodeTable (fun _ : List ℕ => some ((42 : ℕ), 1)) [7, 7] = .ok 42)) :=
  ⟨rfl, decode_table_refuses_trailing_bytes (fun _ => some (42, 1)) [7, 7] 42 1 rfl⟩

/-- C10: for a `CoordCube` holding the `ud_edges` sentinel 65535,
`phase2_move` with any move `m < 18` reads `ud_edges_move` at
`N_UD_EDGES·N_MOVE + m − N_MOVE = 18·40319 + m`, which is inside a table
of the built length `N_UD_EDGES·N_MOVE = 725760` (so the access cannot
panic), and stores that last-row value as the new `ud_edges` instead of
keeping the sentinel. -/
theorem phase2_move_sentinel_reads_last_row (ssm cm um : List ℕ)
    (c : CoordCube) (m : ℕ) (hm : m < 18)
    (hlen : um.length = N_UD_EDGES * N_MOVE) (hud : c.ud_edges = 65535) :
    N_UD_EDGES * N_MOVE + m - N_MOVE < um.length ∧
    N_UD_EDGES * N_MOVE + m - N_MOVE = 18 * 40319 + m ∧
    (phase2Move ssm cm um c m).ud_edges =
      um.getD (N_UD_EDGES * N_MOVE + m - N_MOVE) 0 := by
  refine ⟨?_, ?_, ?_⟩
  · rw [hlen]; simp only [N_UD_EDGES, N_MOVE]; omega
  · simp only [N_UD_EDGES, N_MOVE]; omega
  · simp [phase2Move, hud]

/-- C10 witness: the statement at move `U` (m = 0) on the sentinel-bearing
coordinate cube with an all-zero table of the built length. -/
theorem phase2_move_sentinel_reads_last_row_witness :
    ((0 : ℕ) < 18 ∧
     (List.replicate (N_UD_EDGES * N_MOVE) 0).length = N_UD_EDGES * N_MOVE ∧
     sentinelCoordCube.ud_edges = 65535) ∧
    (N_UD_EDGES * N_MOVE + 0 - N_MOVE <
        (List.replicate (N_UD_EDGES * N_MOVE) 0).length ∧
     N_UD_EDGES * N_MOVE + 0 - N_MOVE = 18 * 40319 + 0 ∧
     (phase2Move [] [] (List.replicate (N_UD_EDGES * N_MOVE) 0)
        sentinelCoordCube 0).ud_edges =
       (List.replicate (N_UD_EDGES * N_MOVE) 0).getD
         (N_UD_EDGES * N_MOVE + 0 - N_MOVE) 0) :=
  ⟨⟨by decide, by simp, rfl⟩,
   phase2_move_sentinel_reads_last_row [] [] _ sentinelCoordCube 0
     (by decide) (by simp) rfl⟩

end Kociemba
